import Mathlib

/-!
Shallow embedding of the agent-ai repository core:
`src/models/message.py`, `src/models/tool.py`, `src/memory/memory_manager.py`,
`src/cache/cache_manager.py`, `src/core/agent.py`.

Modelling conventions:
* Python exceptions are modelled with `Except String`; `.error e` stands for a
  raised exception whose text is `e`.  A `try/except` block is a `match` on the
  `Except` value of its body.
* Python string truthiness (`if s:`) is modelled explicitly: `None` and the
  empty string are falsy.
* `datetime.now().isoformat()` / `time.time()` are passed in as explicit
  parameters (`now`), since the model is pure.
* File and sqlite storage are modelled as in-memory lists; an I/O fault on a
  durable write is an explicit boolean parameter (the code catches such faults
  and leaves the store unchanged).
-/

/-- Role enum from `src/models/message.py` (`class Role(Enum)`). -/
inductive Role where
  | system
  | user
  | assistant
  | tool
  | function
deriving DecidableEq, Repr

/-- The `.value` of a `Role` member, as declared in `class Role(Enum)`. -/
def Role.value : Role → String
  | .system => "system"
  | .user => "user"
  | .assistant => "assistant"
  | .tool => "tool"
  | .function => "function"

/-- `Role(s)` in Python: returns the member with that value, raises
`ValueError` for any other string. -/
def Role.ofValue : String → Except String Role
  | "system" => .ok .system
  | "user" => .ok .user
  | "assistant" => .ok .assistant
  | "tool" => .ok .tool
  | "function" => .ok .function
  | s => .error ("ValueError: " ++ s ++ " is not a valid Role")

/-- The `function` part of a backend tool-call request: a function name and a
JSON-encoded argument string (`tool_call.function` in `Agent._handle_tool_calls`). -/
structure ToolCallFunction where
  name : String
  arguments : String
deriving DecidableEq, Repr

/-- A backend tool-call request (`tool_call` in `Agent._handle_tool_calls`):
an id plus the called function. -/
structure ToolCall where
  id : String
  function : ToolCallFunction
deriving DecidableEq, Repr

/-- Free-form metadata mapping; entries are opaque key/value strings. -/
abbrev Metadata := List (String × String)

/-- Keyword arguments decoded from a tool call's JSON argument payload
(`tool_args` in `Agent._handle_tool_calls`); values are opaque strings. -/
abbrev Args := List (String × String)

/-- `class Message` from `src/models/message.py`.  `__init__` stores the six
constructor arguments (applying `tool_calls or []` and `metadata or {}`) and
assigns `timestamp = datetime.now().isoformat()`. -/
structure Message where
  role : Role
  content : String
  name : Option String
  tool_calls : List ToolCall
  tool_call_id : Option String
  metadata : Metadata
  timestamp : String
deriving DecidableEq, Repr

/-- Python truthiness of an `Optional[str]`: `None` and `""` are falsy. -/
def strTruthy : Option String → Bool
  | none => false
  | some s => !(s == "")

/-- `Message.system` classmethod: role SYSTEM, defaults for the other fields. -/
def Message.system (content : String) (metadata : Metadata) (now : String) : Message :=
  ⟨.system, content, none, [], none, metadata, now⟩

/-- `Message.user` classmethod: role USER, defaults for the other fields. -/
def Message.user (content : String) (metadata : Metadata) (now : String) : Message :=
  ⟨.user, content, none, [], none, metadata, now⟩

/-- `Message.assistant` classmethod: role ASSISTANT, defaults for the other fields. -/
def Message.assistant (content : String) (metadata : Metadata) (now : String) : Message :=
  ⟨.assistant, content, none, [], none, metadata, now⟩

/-- `Message.tool` classmethod: role TOOL with a `tool_call_id`. -/
def Message.tool (content : String) (tool_call_id : String) (metadata : Metadata)
    (now : String) : Message :=
  ⟨.tool, content, none, [], some tool_call_id, metadata, now⟩

/-- The dictionary produced by `Message.to_dict` / consumed by
`Message.from_dict`.  A field is `some v` when the corresponding key is
present in the Python dict. -/
structure MsgDict where
  role : Option String
  content : Option String
  name : Option String
  tool_calls : Option (List ToolCall)
  tool_call_id : Option String
  timestamp : Option String
  metadata : Option Metadata
deriving DecidableEq, Repr

/-- `Message.to_dict`: always writes `role` (its `.value`) and `content`;
writes `name`, `tool_calls`, `tool_call_id` only when truthy (non-empty);
never writes `timestamp` or `metadata`. -/
def Message.to_dict (m : Message) : MsgDict :=
  { role := some m.role.value
    content := some m.content
    name := if strTruthy m.name then m.name else none
    tool_calls := if m.tool_calls.isEmpty then none else some m.tool_calls
    tool_call_id := if strTruthy m.tool_call_id then m.tool_call_id else none
    timestamp := none
    metadata := none }

/-- `Message.from_dict`: `Role(data.get("role", "user"))` (raises `ValueError`
on an unknown role string), defaults for the missing keys, then overrides the
freshly assigned timestamp when a `timestamp` key is present. -/
def Message.from_dict (d : MsgDict) (now : String) : Except String Message :=
  match Role.ofValue (d.role.getD "user") with
  | .error e => .error e
  | .ok role =>
    let m : Message :=
      ⟨role, d.content.getD "", d.name, d.tool_calls.getD [], d.tool_call_id,
        d.metadata.getD [], now⟩
    match d.timestamp with
    | some t => .ok { m with timestamp := t }
    | none => .ok m

/-- `class Tool` from `src/models/tool.py`, restricted to the fields the agent
loop reads: the lookup `name` and the wrapped callable.  The callable returns
`.error e` when the underlying Python function raises an exception with text
`e`; an `.ok` value is the `str()`-coerced return value. -/
structure Tool where
  name : String
  description : String
  function : Args → Except String String

/-- `Tool.__call__`: `try: return self.function(...)` and on any exception
return the string `"工具调用失败: " + str(e)` as an ordinary value, so the
call itself never raises. -/
def Tool.call (t : Tool) (args : Args) : Except String String :=
  match t.function args with
  | .ok r => .ok r
  | .error e => .ok ("工具调用失败: " ++ e)

/-- The last `n` elements of a list (what survives in a `deque(maxlen=n)`
after appending the whole list). -/
def lastN (n : Nat) (l : List α) : List α := l.drop (l.length - n)

/-- `class ShortTermMemory`: `self.messages = deque(maxlen=capacity)`,
oldest first. -/
structure ShortTermMemory where
  capacity : Nat
  messages : List Message
deriving DecidableEq, Repr

/-- `ShortTermMemory.add`: `deque.append` — append on the right, evicting from
the left once the deque holds `capacity` elements. -/
def ShortTermMemory.add (s : ShortTermMemory) (m : Message) : ShortTermMemory :=
  { s with messages := lastN s.capacity (s.messages ++ [m]) }

/-- `ShortTermMemory.get_all`: `list(self.messages)`. -/
def ShortTermMemory.get_all (s : ShortTermMemory) : List Message := s.messages

/-- `ShortTermMemory.clear`: `self.messages.clear()`. -/
def ShortTermMemory.clear (s : ShortTermMemory) : ShortTermMemory :=
  { s with messages := [] }

/-- Adding a list of messages one by one (`for m in l: s.add(m)`). -/
def ShortTermMemory.addAll (s : ShortTermMemory) (l : List Message) : ShortTermMemory :=
  l.foldl ShortTermMemory.add s

/-- One row of the `messages` table created by `LongTermMemory._init_db`:
only `conversation_id, role, content, name, timestamp, metadata` columns exist
(besides the autoincrement id, modelled by list position).  The `role` column
holds `message.role.value`; since `Role.value` is injective we store the
`Role` itself.  The `conversations` index table is not modelled: no claim
reads it. -/
structure LTRow where
  conversation_id : String
  role : Role
  content : String
  name : Option String
  timestamp : String
  metadata : Metadata
deriving DecidableEq, Repr

/-- The `messages` table, in autoincrement-id (insertion) order. -/
abbrev LTStore := List LTRow

/-- `LongTermMemory.add`: INSERT one row holding role/content/name/timestamp/
metadata under the conversation id.  Any sqlite error is caught and logged
(`except Exception`), leaving the store unchanged and raising nothing; the
`fault` flag says whether this write raises internally. -/
def LongTermMemory.add (store : LTStore) (m : Message) (conversation_id : String)
    (fault : Bool) : LTStore :=
  if fault then store
  else store ++ [⟨conversation_id, m.role, m.content, m.name, m.timestamp, m.metadata⟩]

/-- The `Message(role=role, content=content, name=name, metadata=...)`
constructed for each fetched row in `LongTermMemory.get_conversation`, with
`message.timestamp = timestamp` assigned afterwards.  The row has no
tool_calls / tool_call_id columns, so the constructor defaults `[]` / `None`
apply. -/
def LTRow.toMessage (r : LTRow) : Message :=
  ⟨r.role, r.content, r.name, [], none, r.metadata, r.timestamp⟩

/-- `LongTermMemory.get_conversation`: SELECT the rows of one conversation
`ORDER BY id` and rebuild a `Message` from each. -/
def LongTermMemory.get_conversation (store : LTStore) (conversation_id : String) :
    List Message :=
  (store.filter (fun r => r.conversation_id == conversation_id)).map LTRow.toMessage

/-- `class MemoryManager` from `src/memory/memory_manager.py`. -/
structure MemoryManager where
  short_term : ShortTermMemory
  long_term_enabled : Bool
  long_term : LTStore
  current_conversation_id : Option String
deriving DecidableEq, Repr

/-- `MemoryManager.add`: always add to short-term; add to long-term only when
`self.long_term_enabled and self.current_conversation_id` is truthy.  `fault`
is whether that durable write raises internally (caught inside
`LongTermMemory.add`). -/
def MemoryManager.add (mm : MemoryManager) (m : Message) (fault : Bool) : MemoryManager :=
  let st := mm.short_term.add m
  if mm.long_term_enabled && strTruthy mm.current_conversation_id then
    { mm with
      short_term := st
      long_term := LongTermMemory.add mm.long_term m (mm.current_conversation_id.getD "") fault }
  else { mm with short_term := st }

/-- `MemoryManager.get_messages`: `self.short_term.get_all()`. -/
def MemoryManager.get_messages (mm : MemoryManager) : List Message :=
  mm.short_term.get_all

/-- `MemoryManager.clear_short_term`. -/
def MemoryManager.clear_short_term (mm : MemoryManager) : MemoryManager :=
  { mm with short_term := mm.short_term.clear }

/-- `MemoryManager.set_conversation`: record the id; then, when
`self.long_term_enabled and conversation_id` is truthy (the empty string is
falsy), clear short-term and replay the full durable log for that id through
`short_term.add`. -/
def MemoryManager.set_conversation (mm : MemoryManager) (conversation_id : String) :
    MemoryManager :=
  let mm1 := { mm with current_conversation_id := some conversation_id }
  if mm1.long_term_enabled && !(conversation_id == "") then
    { mm1 with
      short_term :=
        ShortTermMemory.addAll mm1.short_term.clear
          (LongTermMemory.get_conversation mm1.long_term conversation_id) }
  else mm1

/-- One cached file's contents, as written by `CacheManager.set`:
`(\x7b'timestamp', 'request', 'response'\x7d)` with the write-time clock value. -/
structure CacheEntry where
  timestamp : Nat
  request : String
  response : String
deriving DecidableEq, Repr

/-- `class CacheManager` from `src/cache/cache_manager.py`.  `genKey` models
`_generate_cache_key` (md5 of the key-sorted JSON dump): an arbitrary
deterministic digest of the request payload.  `store` maps cache keys to the
file contents under the cache directory. -/
structure CacheManager where
  expiry_days : Nat
  genKey : String → String
  store : List (String × CacheEntry)

/-- `CacheManager.get`: miss when no entry file exists; when the entry's
write time plus `expiry_days` (in seconds) is before `now`, delete the file
and miss; otherwise return the stored response.  Returns the result together
with the possibly-updated store. -/
def CacheManager.get (c : CacheManager) (data : String) (now : Nat) :
    Option String × CacheManager :=
  let key := c.genKey data
  match c.store.lookup key with
  | none => (none, c)
  | some e =>
    if e.timestamp + c.expiry_days * 24 * 60 * 60 < now then
      (none, { c with store := c.store.filter (fun kv => !(kv.1 == key)) })
    else
      (some e.response, c)

/-- `CacheManager.set`: overwrite/create the entry file for the request's key
with `timestamp = time.time()`, the request and the response. -/
def CacheManager.set (c : CacheManager) (data : String) (response : String)
    (now : Nat) : CacheManager :=
  let key := c.genKey data
  { c with store := (key, ⟨now, data, response⟩) :: c.store.filter (fun kv => !(kv.1 == key)) }

/-- The ambient pieces `Agent.run` needs, gathered in one record.
`Agent._call_model` (agent.py lines 189-233) has two regions.  `pre msgs`
models the UNGUARDED region that runs before the `try` at line 224: request
shaping (`message.to_dict()` over the whole history, line 205) and, when
caching is enabled, the cache lookup (lines 216-221: `_generate_cache_key`
runs `json.dumps` over the request and a hit is parsed with
`Message.from_dict`).  `.error e` is an exception raised in that region — it
PROPAGATES out of `_call_model`; reachable examples are the `TypeError` from
`json.dumps` over SDK tool_calls objects embedded in the request, and the
`AttributeError` from `to_dict` on a string-role message rehydrated by
`get_conversation`.  `.ok (some m)` is a cache hit returning `m` with no
provider call; `.ok none` proceeds into the `try`.  `backend msgs` models the
body of that `try`: the provider SDK call and response parsing; its
`.error e` (transport error, malformed response, or the `ValueError` for an
unsupported model id) is caught and folded.  `decode` models `json.loads` on
a tool-call argument payload (`none` = `JSONDecodeError`).  `ltFault` says
whether a durable memory write raises internally, as a function of the
current store.  `now` is the clock value used for messages constructed
during this turn. -/
structure AgentCfg where
  tools : List Tool
  now : String
  decode : String → Option Args
  pre : List Message → Except String (Option Message)
  backend : List Message → Except String Message
  ltFault : LTStore → Bool

/-- `self.memory.add(message)` as called from `Agent`: the durable-write
fault is drawn from the configuration. -/
def Agent.memAdd (cfg : AgentCfg) (mm : MemoryManager) (m : Message) : MemoryManager :=
  mm.add m (cfg.ltFault mm.long_term)

/-- `Agent._call_model`: first the unguarded pre-`try` region (request
shaping and cache lookup) — an exception raised there propagates, a cache
hit returns immediately; then the `try` body (the provider call), whose
exception is caught and folded into the apologetic assistant message. -/
def Agent.call_model (cfg : AgentCfg) (messages : List Message) : Except String Message :=
  match cfg.pre messages with
  | .error e => .error e
  | .ok (some cached) => .ok cached
  | .ok none =>
    match cfg.backend messages with
    | .ok m => .ok m
    | .error e => .ok (Message.assistant ("抱歉，我遇到了一个错误: " ++ e) [] cfg.now)

/-- The loop body of `Agent._handle_tool_calls` for one tool-call request:
`json.loads(function.arguments)` (NOT inside any `try` — a decode failure
propagates), then `next((t for t in self.tools if t.name == tool_name), None)`;
on a found tool, `try: result = tool(**tool_args)` with an `except` branch
producing a failure message; on no tool, the "找不到工具" message.  Returns
the tool-role `Message` appended to memory, or the propagated exception. -/
def Agent.dispatchStep (cfg : AgentCfg) (tc : ToolCall) : Except String Message :=
  match cfg.decode tc.function.arguments with
  | none => .error ("JSONDecodeError: " ++ tc.function.arguments)
  | some args =>
    match cfg.tools.find? (fun t => t.name == tc.function.name) with
    | some t =>
      match t.call args with
      | .ok result => .ok (Message.tool result tc.id [] cfg.now)
      | .error e => .ok (Message.tool ("工具调用失败: " ++ e) tc.id [] cfg.now)
    | none => .ok (Message.tool ("找不到工具: " ++ tc.function.name) tc.id [] cfg.now)

/-- The message `Agent.dispatchStep` appends when the argument payload
decodes (the `getD` is only reached under a `decode = some` hypothesis). -/
def Agent.dispatchMsg (cfg : AgentCfg) (tc : ToolCall) : Message :=
  match cfg.tools.find? (fun t => t.name == tc.function.name) with
  | some t =>
    match t.call ((cfg.decode tc.function.arguments).getD []) with
    | .ok result => Message.tool result tc.id [] cfg.now
    | .error e => Message.tool ("工具调用失败: " ++ e) tc.id [] cfg.now
  | none => Message.tool ("找不到工具: " ++ tc.function.name) tc.id [] cfg.now

/-- The `for tool_call in message.tool_calls` loop of
`Agent._handle_tool_calls`: process requests in backend emission order,
appending each produced tool message to memory; an exception aborts the loop
and propagates. -/
def Agent.processCalls (cfg : AgentCfg) (mm : MemoryManager) :
    List ToolCall → Except String MemoryManager
  | [] => .ok mm
  | tc :: rest =>
    match Agent.dispatchStep cfg tc with
    | .ok m => Agent.processCalls cfg (Agent.memAdd cfg mm m) rest
    | .error e => .error e

/-- `Agent._handle_tool_calls`: return unchanged when there are no tool
calls; otherwise append the assistant message to memory, run the dispatch
loop, and re-invoke `_call_model` on the updated history.  An exception from
that re-invocation propagates; in the source `self.memory` has already been
mutated in place by then (here: to the state the `.ok` branch would carry). -/
def Agent.handle_tool_calls (cfg : AgentCfg) (mm : MemoryManager) (message : Message) :
    Except String (MemoryManager × Message) :=
  if message.tool_calls.isEmpty then .ok (mm, message)
  else
    let mm1 := Agent.memAdd cfg mm message
    match Agent.processCalls cfg mm1 message.tool_calls with
    | .ok mm2 =>
      match Agent.call_model cfg mm2.get_messages with
      | .ok m2 => .ok (mm2, m2)
      | .error e => .error e
    | .error e => .error e

/-- `Agent.run`: append the user message, call the model, dispatch tool calls
when present, append the final assistant message, return its content.  The
`Except` result records whether an exception escapes `run`. -/
def Agent.run (cfg : AgentCfg) (mm : MemoryManager) (input_text : String) :
    Except String (MemoryManager × String) :=
  let mm1 := Agent.memAdd cfg mm (Message.user input_text [] cfg.now)
  match Agent.call_model cfg mm1.get_messages with
  | .error e => .error e
  | .ok response =>
    match (if response.tool_calls.isEmpty then Except.ok (mm1, response)
           else Agent.handle_tool_calls cfg mm1 response) with
    | .ok (mm2, response2) => .ok (Agent.memAdd cfg mm2 response2, response2.content)
    | .error e => .error e

/-! Concrete instances used to witness and refute the claims below. -/

/-- A backend that answers any history with a fixed plain assistant message. -/
def plainBackend (content : String) : List Message → Except String Message :=
  fun _ => Except.ok (Message.assistant content [] "t")

/-- The pre-`try` region of `_call_model` for a configuration with caching
disabled (`enable_cache=False`) and enum-role histories: request shaping
succeeds, there is no cache lookup, so it never raises and never hits. -/
def benignPre : List Message → Except String (Option Message) :=
  fun _ => Except.ok none

/-- A model of `json.loads` adequate for the concrete payloads below: the
two-character object literal decodes to an empty keyword-argument set and
any other payload raises `JSONDecodeError`. -/
def exDecode : String → Option Args :=
  fun s => if s == "\x7b\x7d" then some [] else none

/-- An assistant message carrying one tool-call request whose argument
payload is not valid JSON. -/
def exAsst1 : Message := ⟨.assistant, "", none, [⟨"c1", ⟨"f", "oops"⟩⟩], none, [], "t"⟩

/-- A configuration whose backend requests a tool call with an undecodable
argument payload; caching is disabled so the pre-region is benign. -/
def exCfg1 : AgentCfg :=
  ⟨[], "t", fun _ => none, benignPre, fun _ => Except.ok exAsst1, fun _ => false⟩

/-- A fresh memory manager with capacity 10 and long-term memory disabled. -/
def exMM1 : MemoryManager := ⟨⟨10, []⟩, false, [], none⟩

/-- A configuration with no registered tools, a benign pre-region and a plain
backend. -/
def wCfg1 : AgentCfg := ⟨[], "t", exDecode, benignPre, plainBackend "hello", fun _ => false⟩

/-- A fresh memory manager with capacity 10. -/
def wMM1 : MemoryManager := ⟨⟨10, []⟩, false, [], none⟩

/-- A configuration with no tools, a benign pre-region, and decoding that
accepts the empty-object payload. -/
def exCfg2 : AgentCfg := ⟨[], "t", exDecode, benignPre, plainBackend "done", fun _ => false⟩

/-- A memory manager whose short-term capacity is 1. -/
def exMM2 : MemoryManager := ⟨⟨1, []⟩, false, [], none⟩

/-- An assistant message carrying two tool-call requests, each with the
decodable empty-object argument payload. -/
def exAsst2 : Message :=
  ⟨.assistant, "", none, [⟨"c1", ⟨"f", "\x7b\x7d"⟩⟩, ⟨"c2", ⟨"g", "\x7b\x7d"⟩⟩], none, [], "t"⟩

/-- The memory state left by dispatching `exAsst2` against `exMM2`: only the
second tool-result message survives the capacity-1 ring buffer. -/
def exMM2Out : MemoryManager :=
  ⟨⟨1, [Message.tool "找不到工具: g" "c2" [] "t"]⟩, false, [], none⟩

/-- A capacity-5 memory manager. -/
def wMM2 : MemoryManager := ⟨⟨5, []⟩, false, [], none⟩

/-- An assistant message carrying a single tool-call request with the
decodable empty-object argument payload. -/
def wAsst2 : Message := ⟨.assistant, "", none, [⟨"c1", ⟨"f", "\x7b\x7d"⟩⟩], none, [], "t"⟩

/-- A durable-log row under the empty-string conversation id. -/
def exRow3 (content : String) : LTRow := ⟨"", .user, content, none, "t", []⟩

/-- A memory manager with capacity 1, long-term memory enabled, a durable log
of two rows under the empty-string conversation id, and one unrelated message
in short-term memory. -/
def exMM3 : MemoryManager :=
  ⟨⟨1, [Message.user "junk" [] "t"]⟩, true, [exRow3 "one", exRow3 "two"], none⟩

/-- A durable-log row under conversation id `"c"`. -/
def wRow3 (content : String) : LTRow := ⟨"c", .user, content, none, "t", []⟩

/-- A memory manager with capacity 1 and a two-row durable log for `"c"`. -/
def wMM3 : MemoryManager := ⟨⟨1, []⟩, true, [wRow3 "one", wRow3 "two"], none⟩

/-- An empty cache with a seven-day expiry and the identity digest. -/
def cW5 : CacheManager := ⟨7, fun s => s, []⟩

/-- A cache holding one entry written at time 0. -/
def cW6 : CacheManager := ⟨7, fun s => s, [("r", ⟨0, "r", "v"⟩)]⟩

/-- A tool-role message whose `tool_call_id` is the empty string. -/
def exMsg7 : Message := ⟨.tool, "x", none, [], some "", [], "t0"⟩

/-- What `from_dict(to_dict(exMsg7))` rebuilds: the empty-string
`tool_call_id` has become `None`. -/
def exMsg7Out : Message := ⟨.tool, "x", none, [], none, [], "t1"⟩

/-- An ordinary assistant message with no tool-call id. -/
def wMsg7 : Message := ⟨.assistant, "hello", none, [], none, [], "t0"⟩

/-- A configuration with no registered tools whose decoding accepts the
empty-object payload. -/
def wCfg8 : AgentCfg := ⟨[], "t", exDecode, benignPre, plainBackend "ok", fun _ => false⟩

/-- A tool-call request naming an unregistered tool, with the decodable
empty-object argument payload. -/
def wTC8 : ToolCall := ⟨"id1", ⟨"missing", "\x7b\x7d"⟩⟩

/-- A configuration with no registered tools; the only payload that occurs is
`"oops"`, which is not valid JSON, so decoding fails. -/
def exCfg8 : AgentCfg := ⟨[], "t", fun _ => none, benignPre, plainBackend "ok", fun _ => false⟩

/-- A tool-call request naming an unregistered tool with an undecodable
argument payload. -/
def exTC8 : ToolCall := ⟨"id1", ⟨"missing", "oops"⟩⟩

/-- A tool whose underlying function always raises. -/
def wTool9 : Tool := ⟨"boom", "always fails", fun _ => Except.error "boom"⟩

/-- A one-row durable log under conversation id `"c"`. -/
def wStore10 : LTStore := [⟨"c", .assistant, "hi", none, "t", []⟩]

/-- The message `get_conversation` rebuilds from the row of `wStore10`. -/
def wMsg10 : Message := ⟨.assistant, "hi", none, [], none, [], "t"⟩

/-! Helper lemmas about `lastN` and the ring buffer. -/

/-- `lastN` of the empty list is empty. -/
theorem lastN_nil (n : Nat) : lastN n ([] : List α) = [] := by
  simp [lastN]

/-- `lastN` keeps at most `n` elements. -/
theorem lastN_length (n : Nat) (l : List α) : (lastN n l).length = min l.length n := by
  simp [lastN]
  omega

/-- Taking the last `n` of a list already cut to its last `n`, after appending
more elements, is the same as cutting the whole appended list. -/
theorem lastN_append_absorb (n : Nat) (l l' : List α) :
    lastN n (lastN n l ++ l') = lastN n (l ++ l') := by
  unfold lastN
  have hk : l.length - n ≤ l.length := Nat.sub_le _ _
  rw [← List.drop_append_of_le_length hk, List.drop_drop]
  congr 1
  simp [List.length_drop, List.length_append]
  omega

/-- A short enough appended block survives inside `lastN` as a suffix. -/
theorem lastN_suffix_of_le (n : Nat) (l l' : List α) (h : l'.length ≤ n) :
    l' <:+ lastN n (l ++ l') := by
  unfold lastN
  have hk : (l ++ l').length - n ≤ l.length := by
    simp [List.length_append]
    omega
  rw [List.drop_append_of_le_length hk]
  exact List.suffix_append _ _

/-- A member of `lastN n l` is a member of `l`. -/
theorem mem_of_mem_lastN {n : Nat} {l : List α} {a : α} (h : a ∈ lastN n l) : a ∈ l := by
  unfold lastN at h
  exact List.mem_of_mem_drop h

/-- The empty-or-not form of `List.isEmpty`. -/
theorem isEmpty_eq_false_of_ne_nil {l : List α} (h : l ≠ []) : l.isEmpty = false := by
  cases l with
  | nil => exact absurd rfl h
  | cons a t => rfl

/-- `ShortTermMemory.add` never changes the capacity. -/
theorem ShortTermMemory.add_capacity (s : ShortTermMemory) (m : Message) :
    (s.add m).capacity = s.capacity := rfl

/-- `ShortTermMemory.addAll` never changes the capacity. -/
theorem ShortTermMemory.addAll_capacity (s : ShortTermMemory) (l : List Message) :
    (s.addAll l).capacity = s.capacity := by
  induction l generalizing s with
  | nil => rfl
  | cons x l ih =>
    show ((s.add x).addAll l).capacity = s.capacity
    rw [ih]
    rfl

/-- Replaying messages into a buffer whose contents are the `lastN` of some
log keeps the `lastN` shape: the final contents are the `lastN` of the log
extended by the replayed messages. -/
theorem ShortTermMemory.addAll_messages (s : ShortTermMemory) (l0 : List Message)
    (hs : s.messages = lastN s.capacity l0) (l : List Message) :
    (s.addAll l).messages = lastN s.capacity (l0 ++ l) := by
  induction l generalizing s l0 with
  | nil =>
    rw [List.append_nil]
    exact hs
  | cons x l ih =>
    show ((s.add x).addAll l).messages = lastN s.capacity (l0 ++ x :: l)
    have hadd : (s.add x).messages = lastN (s.add x).capacity (l0 ++ [x]) := by
      show lastN s.capacity (s.messages ++ [x]) = lastN s.capacity (l0 ++ [x])
      rw [hs, lastN_append_absorb]
    have h2 := ih (s.add x) (l0 ++ [x]) hadd
    rw [List.append_assoc] at h2
    simpa using h2

/-- Adding `l` one by one into an empty capacity-`K` buffer leaves the last
`K` elements of `l`. -/
theorem ShortTermMemory.addAll_empty (K : Nat) (l : List Message) :
    (ShortTermMemory.addAll ⟨K, []⟩ l).messages = lastN K l := by
  have h := ShortTermMemory.addAll_messages ⟨K, []⟩ [] (by simp [lastN]) l
  simpa using h

/-! Helper lemmas about the memory manager and the agent loop. -/

/-- `set_conversation` with long-term enabled and a non-empty id rebuilds
short-term memory as the `lastN` of the durable log, keeping the capacity. -/
theorem MemoryManager.set_conversation_short_term (mm : MemoryManager) (cid : String)
    (hen : mm.long_term_enabled = true) (hcid : cid ≠ "") :
    (mm.set_conversation cid).short_term.messages =
      lastN mm.short_term.capacity (LongTermMemory.get_conversation mm.long_term cid) ∧
    (mm.set_conversation cid).short_term.capacity = mm.short_term.capacity := by
  have hb : (cid == "") = false := beq_eq_false_iff_ne.mpr hcid
  unfold MemoryManager.set_conversation
  simp only [hen, hb, Bool.not_false, Bool.and_true, if_true]
  constructor
  · have h := ShortTermMemory.addAll_messages mm.short_term.clear [] (by simp [lastN, ShortTermMemory.clear]) (LongTermMemory.get_conversation mm.long_term cid)
    simpa [ShortTermMemory.clear] using h
  · rw [ShortTermMemory.addAll_capacity]
    rfl

/-- Every message rebuilt by `get_conversation` carries no tool-call
structure: the row has no such columns. -/
theorem LongTermMemory.get_conversation_no_tool_structure (store : LTStore) (cid : String) :
    ∀ m ∈ LongTermMemory.get_conversation store cid,
      m.tool_calls = [] ∧ m.tool_call_id = none := by
  intro m hm
  simp only [LongTermMemory.get_conversation, List.mem_map] at hm
  obtain ⟨r, _, rfl⟩ := hm
  exact ⟨rfl, rfl⟩

/-- `Agent.memAdd` acts on short-term memory exactly as `ShortTermMemory.add`. -/
theorem Agent.memAdd_short_term (cfg : AgentCfg) (mm : MemoryManager) (m : Message) :
    (Agent.memAdd cfg mm m).short_term = mm.short_term.add m := by
  simp only [Agent.memAdd, MemoryManager.add]
  split <;> rfl

/-- When the argument payload decodes, the dispatch loop body returns the
message described by `Agent.dispatchMsg` and does not raise. -/
theorem Agent.dispatchStep_ok (cfg : AgentCfg) (tc : ToolCall) (args : Args)
    (hdec : cfg.decode tc.function.arguments = some args) :
    Agent.dispatchStep cfg tc = Except.ok (Agent.dispatchMsg cfg tc) := by
  cases hf : cfg.tools.find? (fun t => t.name == tc.function.name) with
  | none => simp [Agent.dispatchStep, Agent.dispatchMsg, hdec, hf]
  | some t =>
    cases hc : t.call args with
    | ok r => simp [Agent.dispatchStep, Agent.dispatchMsg, hdec, hf, hc]
    | error e => simp [Agent.dispatchStep, Agent.dispatchMsg, hdec, hf, hc]

/-- The message the dispatch loop appends for a request is always tool-role
and tagged with the request's id, whichever branch is taken. -/
theorem Agent.dispatchMsg_fields (cfg : AgentCfg) (tc : ToolCall) :
    (Agent.dispatchMsg cfg tc).role = Role.tool ∧
    (Agent.dispatchMsg cfg tc).tool_call_id = some tc.id := by
  cases hf : cfg.tools.find? (fun t => t.name == tc.function.name) with
  | none => simp [Agent.dispatchMsg, hf, Message.tool]
  | some t =>
    cases hc : t.call ((cfg.decode tc.function.arguments).getD []) with
    | ok r => simp [Agent.dispatchMsg, hf, hc, Message.tool]
    | error e => simp [Agent.dispatchMsg, hf, hc, Message.tool]

/-- When every argument payload decodes, the dispatch loop processes all
requests, appending one message per request in order, and does not raise. -/
theorem Agent.processCalls_ok (cfg : AgentCfg) (tcs : List ToolCall) :
    ∀ mm : MemoryManager,
      (∀ tc ∈ tcs, (cfg.decode tc.function.arguments).isSome) →
      Agent.processCalls cfg mm tcs =
        Except.ok
          (tcs.foldl (fun acc tc => Agent.memAdd cfg acc (Agent.dispatchMsg cfg tc)) mm) := by
  induction tcs with
  | nil =>
    intro mm _
    rfl
  | cons tc rest ih =>
    intro mm hdec
    obtain ⟨args, hargs⟩ :=
      Option.isSome_iff_exists.mp (hdec tc (List.mem_cons_self _ _))
    rw [List.foldl_cons]
    show (match Agent.dispatchStep cfg tc with
          | .ok m => Agent.processCalls cfg (Agent.memAdd cfg mm m) rest
          | .error e => .error e) = _
    rw [Agent.dispatchStep_ok cfg tc args hargs]
    exact ih _ (fun x hx => hdec x (List.mem_cons_of_mem _ hx))

/-- Folding the dispatch loop's memory writes projects onto short-term memory
as replaying the produced messages one by one. -/
theorem Agent.foldl_memAdd_short_term (cfg : AgentCfg) (tcs : List ToolCall) :
    ∀ mm : MemoryManager,
      (tcs.foldl (fun acc tc => Agent.memAdd cfg acc (Agent.dispatchMsg cfg tc)) mm).short_term =
        mm.short_term.addAll (tcs.map (Agent.dispatchMsg cfg)) := by
  induction tcs with
  | nil =>
    intro mm
    rfl
  | cons tc rest ih =>
    intro mm
    rw [List.foldl_cons, List.map_cons]
    rw [ih (Agent.memAdd cfg mm (Agent.dispatchMsg cfg tc)), Agent.memAdd_short_term]
    rfl

/-- With tool calls present and all payloads decodable, the dispatch loop of
`Agent._handle_tool_calls` completes — memory receives the assistant message
and then one dispatched message per request — and the overall result is
whatever the re-invoked `_call_model` produces on the updated history: its
answer paired with that memory state, or its propagated exception. -/
theorem Agent.handle_tool_calls_eq (cfg : AgentCfg) (mm : MemoryManager) (m : Message)
    (hne : m.tool_calls.isEmpty = false)
    (hdec : ∀ tc ∈ m.tool_calls, (cfg.decode tc.function.arguments).isSome) :
    Agent.handle_tool_calls cfg mm m =
      (match Agent.call_model cfg
          (m.tool_calls.foldl (fun acc tc => Agent.memAdd cfg acc (Agent.dispatchMsg cfg tc))
              (Agent.memAdd cfg mm m)).get_messages with
       | .ok m2 => Except.ok
           (m.tool_calls.foldl (fun acc tc => Agent.memAdd cfg acc (Agent.dispatchMsg cfg tc))
               (Agent.memAdd cfg mm m), m2)
       | .error e => Except.error e) := by
  unfold Agent.handle_tool_calls
  rw [hne]
  simp only [Bool.false_eq_true, if_false]
  rw [Agent.processCalls_ok cfg m.tool_calls (Agent.memAdd cfg mm m) hdec]

/-- When the pre-`try` region of `_call_model` does not raise, `_call_model`
always returns a message: a cache hit, the provider's answer, or the folded
apology. -/
theorem Agent.call_model_ok_of_pre (cfg : AgentCfg) (messages : List Message)
    (hpre : ∀ msgs, ∃ r, cfg.pre msgs = Except.ok r) :
    ∃ m, Agent.call_model cfg messages = Except.ok m := by
  obtain ⟨r, hr⟩ := hpre messages
  unfold Agent.call_model
  rw [hr]
  cases r with
  | some cached => exact ⟨cached, rfl⟩
  | none =>
    cases hb : cfg.backend messages with
    | ok m => exact ⟨m, rfl⟩
    | error e => exact ⟨_, rfl⟩

/-! The claims. -/

/-- C4: for every sequence of N messages added one by one to a
`ShortTermMemory` of capacity K, `get_all()` returns exactly the last
min(N, K) messages in their original relative order, and at every
intermediate point the buffer length is at most K (the oldest message is
evicted on overflow). -/
theorem c4_short_term_ring_buffer (K : Nat) (msgs : List Message) :
    (ShortTermMemory.addAll ⟨K, []⟩ msgs).get_all = msgs.drop (msgs.length - K) ∧
    (ShortTermMemory.addAll ⟨K, []⟩ msgs).get_all.length = min msgs.length K ∧
    ∀ i, (ShortTermMemory.addAll ⟨K, []⟩ (msgs.take i)).get_all.length ≤ K := by
  refine ⟨ShortTermMemory.addAll_empty K msgs, ?_, ?_⟩
  · show (ShortTermMemory.addAll ⟨K, []⟩ msgs).messages.length = min msgs.length K
    rw [ShortTermMemory.addAll_empty K msgs, lastN_length]
  · intro i
    show (ShortTermMemory.addAll ⟨K, []⟩ (msgs.take i)).messages.length ≤ K
    rw [ShortTermMemory.addAll_empty K (msgs.take i), lastN_length]
    omega

/-- C3 (amended): for every NON-EMPTY conversation id whose durable log
contains M messages with M > K, `set_conversation(id)` on a `MemoryManager`
with long-term memory enabled and short-term capacity K leaves short-term
memory holding exactly the last K messages of that log, in log order.  (The
empty-string id is excluded: `if self.long_term_enabled and conversation_id:`
treats it as falsy and skips the rehydration.) -/
theorem c3_set_conversation_amended (mm : MemoryManager) (cid : String) (K M : Nat)
    (hen : mm.long_term_enabled = true)
    (hcid : cid ≠ "")
    (hK : mm.short_term.capacity = K)
    (hM : (LongTermMemory.get_conversation mm.long_term cid).length = M)
    (hMK : K < M) :
    (mm.set_conversation cid).short_term.messages =
      (LongTermMemory.get_conversation mm.long_term cid).drop (M - K) ∧
    (mm.set_conversation cid).short_term.messages.length = K := by
  obtain ⟨h1, _⟩ := MemoryManager.set_conversation_short_term mm cid hen hcid
  constructor
  · rw [h1, hK, ← hM]
    rfl
  · rw [h1, hK, lastN_length, hM]
    omega

/-- C3 counterexample: the claim as stated fails for the empty-string
conversation id.  With long-term memory enabled, capacity 1, and a two-row
durable log stored under the id `""`, `set_conversation("")` skips the
rehydration entirely (Python string truthiness), so short-term memory keeps
its previous unrelated content instead of the last 1 message of that log. -/
theorem c3_counterexample :
    exMM3.long_term_enabled = true ∧
    exMM3.short_term.capacity = 1 ∧
    (LongTermMemory.get_conversation exMM3.long_term "").length = 2 ∧
    (exMM3.set_conversation "").short_term.messages ≠
      lastN 1 (LongTermMemory.get_conversation exMM3.long_term "") := by
  refine ⟨rfl, rfl, rfl, ?_⟩
  decide

/-- C3 witness: the amended theorem applied to a concrete manager with a
two-row log for conversation `"c"` and capacity 1. -/
theorem c3_witness :
    (wMM3.set_conversation "c").short_term.messages =
      (LongTermMemory.get_conversation wMM3.long_term "c").drop (2 - 1) ∧
    (wMM3.set_conversation "c").short_term.messages.length = 1 :=
  c3_set_conversation_amended wMM3 "c" 1 2 rfl (by decide) rfl (by decide) (by decide)

/-- C10: the durable long-term log does not persist tool-call structure.
`LongTermMemory.add` stores only role, content, name, timestamp and metadata;
hence every Message returned by `get_conversation` — and therefore every
message rehydrated into short-term memory by `set_conversation` — has an
empty `tool_calls` list and a `None` `tool_call_id`, even when the originally
stored Message carried tool calls or a tool_call_id. -/
theorem c10_long_term_drops_tool_structure :
    (∀ (store : LTStore) (m : Message) (cid : String),
      LongTermMemory.add store m cid false =
        store ++ [⟨cid, m.role, m.content, m.name, m.timestamp, m.metadata⟩]) ∧
    (∀ (store : LTStore) (cid : String),
      ∀ m ∈ LongTermMemory.get_conversation store cid,
        m.tool_calls = [] ∧ m.tool_call_id = none) ∧
    (∀ (mm : MemoryManager) (cid : String), mm.long_term_enabled = true → cid ≠ "" →
      ∀ m ∈ (mm.set_conversation cid).short_term.messages,
        m.tool_calls = [] ∧ m.tool_call_id = none) := by
  refine ⟨fun store m cid => rfl, LongTermMemory.get_conversation_no_tool_structure, ?_⟩
  intro mm cid hen hcid m hm
  obtain ⟨h1, _⟩ := MemoryManager.set_conversation_short_term mm cid hen hcid
  rw [h1] at hm
  exact LongTermMemory.get_conversation_no_tool_structure mm.long_term cid m
    (mem_of_mem_lastN hm)

/-- C10 witness: the rehydrated message of a concrete one-row log has no
tool-call structure. -/
theorem c10_witness : wMsg10.tool_calls = [] ∧ wMsg10.tool_call_id = none :=
  c10_long_term_drops_tool_structure.2.1 wStore10 "c" wMsg10 (by decide)

/-- C5: for every request payload R and response V, `cache.get(R)` right
after `cache.set(R, V)` returns V, provided the entry's expiry window (write
time plus `expiry_days`) has not elapsed at read time. -/
theorem c5_cache_get_after_set (c : CacheManager) (R V : String) (ts tg : Nat)
    (h : tg ≤ ts + c.expiry_days * 24 * 60 * 60) :
    ((c.set R V ts).get R tg).1 = some V := by
  have hnot : ¬ (ts + c.expiry_days * 24 * 60 * 60 < tg) := by omega
  simp [CacheManager.get, CacheManager.set, List.lookup, hnot]

/-- C5 witness: a concrete set-then-get round trip inside the expiry window. -/
theorem c5_witness :
    (0 : Nat) ≤ 0 + cW5.expiry_days * 24 * 60 * 60 ∧
    ((cW5.set "r" "v" 0).get "r" 0).1 = some "v" :=
  ⟨by omega, c5_cache_get_after_set cW5 "r" "v" 0 0 (by omega)⟩

/-- C6: for every cache entry whose write timestamp plus the configured
`expiry_days` has elapsed at read time, `cache.get` on that request returns
None and removes the entry from the cache store as a side effect of the
read. -/
theorem c6_cache_expired_get (c : CacheManager) (R : String) (now : Nat) (e : CacheEntry)
    (hl : c.store.lookup (c.genKey R) = some e)
    (hexp : e.timestamp + c.expiry_days * 24 * 60 * 60 < now) :
    c.get R now =
      (none, { c with store := c.store.filter (fun kv => !(kv.1 == c.genKey R)) }) := by
  simp [CacheManager.get, hl, hexp]

/-- C6 witness: a concrete entry written at time 0 read after the seven-day
window: the read misses and the entry is gone. -/
theorem c6_witness :
    (0 : Nat) + cW6.expiry_days * 24 * 60 * 60 < 604801 ∧
    cW6.get "r" 604801 =
      (none, { cW6 with store := cW6.store.filter (fun kv => !(kv.1 == cW6.genKey "r")) }) :=
  ⟨by decide, c6_cache_expired_get cW6 "r" 604801 ⟨0, "r", "v"⟩ (by decide) (by decide)⟩

/-- C7 (amended): reconstructing a Message via `from_dict(to_dict(m))`
preserves role, content and tool_calls, and preserves tool_call_id PROVIDED
it is not the empty string (an empty-string tool_call_id is falsy, so
`to_dict` drops the key and `from_dict` rebuilds it as None); independently,
`from_dict` preserves the timestamp whenever a timestamp key is present in
the dictionary input. -/
theorem c7_round_trip_amended (m : Message) (now : String)
    (h : m.tool_call_id ≠ some "") :
    (∃ m', Message.from_dict m.to_dict now = Except.ok m' ∧
      m'.role = m.role ∧ m'.content = m.content ∧
      m'.tool_calls = m.tool_calls ∧ m'.tool_call_id = m.tool_call_id) ∧
    (∀ (d : MsgDict) (t : String) (m2 : Message),
      d.timestamp = some t → Message.from_dict d now = Except.ok m2 →
      m2.timestamp = t) := by
  constructor
  · obtain ⟨role, content, name, tcs, tcid, md, ts⟩ := m
    have hrole : Role.ofValue role.value = Except.ok role := by
      cases role <;> rfl
    have htcs : (if tcs = [] then (none : Option (List ToolCall)) else some tcs).getD [] = tcs := by
      cases tcs <;> simp
    have htcid : (if strTruthy tcid then tcid else none) = tcid := by
      cases tcid with
      | none => rfl
      | some s =>
        have hs : ¬ (s = "") := fun hh => h (by rw [hh])
        simp [strTruthy, hs]
    refine ⟨⟨role, content, if strTruthy name then name else none, tcs, tcid, [], now⟩,
      ?_, rfl, rfl, rfl, rfl⟩
    simp [Message.to_dict, Message.from_dict, hrole, htcs, htcid]
  · intro d t m2 ht hok
    unfold Message.from_dict at hok
    cases hov : Role.ofValue (d.role.getD "user") with
    | error e =>
      rw [hov] at hok
      cases hok
    | ok role =>
      rw [hov, ht] at hok
      cases hok
      rfl

/-- C7 counterexample: the claim as stated fails for a Message whose
tool_call_id is the empty string: `to_dict` omits the key (empty strings are
falsy), so `from_dict(to_dict(m))` rebuilds tool_call_id as None, not `""`. -/
theorem c7_counterexample :
    exMsg7.tool_call_id = some "" ∧
    Message.from_dict exMsg7.to_dict "t1" = Except.ok exMsg7Out ∧
    exMsg7Out.tool_call_id ≠ exMsg7.tool_call_id := by
  refine ⟨rfl, rfl, by decide⟩

/-- C7 witness: the amended round trip applied to a concrete assistant
message. -/
theorem c7_witness :
    wMsg7.tool_call_id ≠ some "" ∧
    ((∃ m', Message.from_dict wMsg7.to_dict "t1" = Except.ok m' ∧
        m'.role = wMsg7.role ∧ m'.content = wMsg7.content ∧
        m'.tool_calls = wMsg7.tool_calls ∧ m'.tool_call_id = wMsg7.tool_call_id) ∧
      (∀ (d : MsgDict) (t : String) (m2 : Message),
        d.timestamp = some t → Message.from_dict d "t1" = Except.ok m2 →
        m2.timestamp = t)) :=
  ⟨by decide, c7_round_trip_amended wMsg7 "t1" (by decide)⟩

/-- C9: `Tool.__call__` never raises: whatever the underlying function and
arguments, if the function raises, the call catches it and returns the string
"工具调用失败: <exception text>" as an ordinary value; consequently the
exception branch of the agent's per-request dispatch is unreachable for
invocations routed through `Tool.__call__` — a found tool always yields the
success-branch tool message holding the stringified call result. -/
theorem c9_tool_call_never_raises (t : Tool) (args : Args) :
    (∃ s, t.call args = Except.ok s) ∧
    (∀ e, t.function args = Except.error e →
      t.call args = Except.ok ("工具调用失败: " ++ e)) ∧
    (∀ (cfg : AgentCfg) (tc : ToolCall),
      cfg.decode tc.function.arguments = some args →
      cfg.tools.find? (fun u => u.name == tc.function.name) = some t →
      ∃ r, t.call args = Except.ok r ∧
        Agent.dispatchStep cfg tc = Except.ok (Message.tool r tc.id [] cfg.now)) := by
  have hok : ∃ s, t.call args = Except.ok s := by
    unfold Tool.call
    cases t.function args with
    | ok r => exact ⟨r, rfl⟩
    | error e => exact ⟨_, rfl⟩
  refine ⟨hok, ?_, ?_⟩
  · intro e he
    unfold Tool.call
    rw [he]
  · intro cfg tc hdec hfind
    obtain ⟨r, hr⟩ := hok
    refine ⟨r, hr, ?_⟩
    simp [Agent.dispatchStep, hdec, hfind, hr]

/-- C9 witness: a tool whose function always raises still returns an
ordinary failure string. -/
theorem c9_witness : wTool9.call [] = Except.ok ("工具调用失败: " ++ "boom") :=
  (c9_tool_call_never_raises wTool9 []).2.1 "boom" rfl

/-- C8 (amended): for every tool-call request whose function name matches no
registered tool AND whose argument payload decodes successfully, dispatch
appends a tool-role Message signalling "找不到工具" carrying that request's
tool_call_id, and does not raise for that request.  (The decode proviso is
forced: `json.loads` runs before the lookup and is not guarded.) -/
theorem c8_unknown_tool_amended (cfg : AgentCfg) (tc : ToolCall) (args : Args)
    (hdec : cfg.decode tc.function.arguments = some args)
    (hnf : cfg.tools.find? (fun t => t.name == tc.function.name) = none) :
    Agent.dispatchStep cfg tc =
      Except.ok (Message.tool ("找不到工具: " ++ tc.function.name) tc.id [] cfg.now) ∧
    (Message.tool ("找不到工具: " ++ tc.function.name) tc.id [] cfg.now).role = Role.tool ∧
    (Message.tool ("找不到工具: " ++ tc.function.name) tc.id [] cfg.now).tool_call_id =
      some tc.id ∧
    (∀ (mm : MemoryManager) (rest : List ToolCall),
      Agent.processCalls cfg mm (tc :: rest) =
        Agent.processCalls cfg
          (Agent.memAdd cfg mm
            (Message.tool ("找不到工具: " ++ tc.function.name) tc.id [] cfg.now)) rest) := by
  have hstep : Agent.dispatchStep cfg tc =
      Except.ok (Message.tool ("找不到工具: " ++ tc.function.name) tc.id [] cfg.now) := by
    simp [Agent.dispatchStep, hdec, hnf]
  refine ⟨hstep, rfl, rfl, ?_⟩
  intro mm rest
  show (match Agent.dispatchStep cfg tc with
        | .ok m => Agent.processCalls cfg (Agent.memAdd cfg mm m) rest
        | .error e => .error e) = _
  rw [hstep]

/-- C8 counterexample: the claim as stated fails when the unknown-tool
request also carries an undecodable argument payload: `json.loads` runs
before the lookup, so dispatch raises instead of appending the
"tool not found" message. -/
theorem c8_counterexample :
    List.find? (fun t => t.name == exTC8.function.name) exCfg8.tools = none ∧
    Agent.dispatchStep exCfg8 exTC8 = Except.error ("JSONDecodeError: " ++ "oops") :=
  ⟨rfl, rfl⟩

/-- C8 witness: the amended statement at a concrete unknown-tool request with
a decodable payload. -/
theorem c8_witness :
    Agent.dispatchStep wCfg8 wTC8 =
      Except.ok (Message.tool ("找不到工具: " ++ wTC8.function.name) wTC8.id [] wCfg8.now) :=
  (c8_unknown_tool_amended wCfg8 wTC8 [] rfl rfl).1

/-- C2 (amended): for an assistant Message carrying tool-call requests whose
argument payloads all decode, the dispatch loop of `_handle_tool_calls`
completes: memory receives the assistant message and then exactly one
dispatched message per request, in backend emission order; each dispatched
message is tool-role and tagged with its request's tool_call_id; the
messages visible afterwards are the last `capacity` of the extended history,
and whenever the number of requests is at most the capacity, all the
per-request messages survive as a suffix of memory.  `_handle_tool_calls`
then re-invokes `_call_model` on that history: it returns that memory with
the response when the re-invocation completes, and propagates the
re-invocation's exception otherwise (the memory mutation having already
happened).  (Two provisos are forced: an undecodable payload raises midway,
and the ring buffer evicts the earliest tool messages when the requests
outnumber the capacity.) -/
theorem c2_tool_dispatch_amended (cfg : AgentCfg) (mm : MemoryManager) (m : Message)
    (hne : m.tool_calls ≠ [])
    (hdec : ∀ tc ∈ m.tool_calls, (cfg.decode tc.function.arguments).isSome) :
    ∃ mmF,
      Agent.processCalls cfg (Agent.memAdd cfg mm m) m.tool_calls = Except.ok mmF ∧
      Agent.handle_tool_calls cfg mm m =
        (match Agent.call_model cfg mmF.get_messages with
         | .ok m2 => Except.ok (mmF, m2)
         | .error e => Except.error e) ∧
      mmF.short_term.messages =
        lastN mm.short_term.capacity
          ((mm.short_term.messages ++ [m]) ++ m.tool_calls.map (Agent.dispatchMsg cfg)) ∧
      (m.tool_calls.map (Agent.dispatchMsg cfg)).length = m.tool_calls.length ∧
      (∀ tc ∈ m.tool_calls,
        (Agent.dispatchMsg cfg tc).role = Role.tool ∧
        (Agent.dispatchMsg cfg tc).tool_call_id = some tc.id) ∧
      (m.tool_calls.length ≤ mm.short_term.capacity →
        (m.tool_calls.map (Agent.dispatchMsg cfg)) <:+ mmF.short_term.messages) := by
  have hie := isEmpty_eq_false_of_ne_nil hne
  have hproc := Agent.processCalls_ok cfg m.tool_calls (Agent.memAdd cfg mm m) hdec
  have hh := Agent.handle_tool_calls_eq cfg mm m hie hdec
  set mmF := m.tool_calls.foldl
    (fun acc tc => Agent.memAdd cfg acc (Agent.dispatchMsg cfg tc))
    (Agent.memAdd cfg mm m) with hmmF
  refine ⟨mmF, hproc, hh, ?_, List.length_map _ _, ?_, ?_⟩
  · have hshort : mmF.short_term =
        (Agent.memAdd cfg mm m).short_term.addAll (m.tool_calls.map (Agent.dispatchMsg cfg)) :=
      Agent.foldl_memAdd_short_term cfg m.tool_calls (Agent.memAdd cfg mm m)
    rw [hshort, Agent.memAdd_short_term]
    have hs : (mm.short_term.add m).messages =
        lastN (mm.short_term.add m).capacity (mm.short_term.messages ++ [m]) := rfl
    have h2 := ShortTermMemory.addAll_messages (mm.short_term.add m)
      (mm.short_term.messages ++ [m]) hs (m.tool_calls.map (Agent.dispatchMsg cfg))
    exact h2
  · intro tc _
    exact Agent.dispatchMsg_fields cfg tc
  · intro hlen
    have hshort : mmF.short_term =
        (Agent.memAdd cfg mm m).short_term.addAll (m.tool_calls.map (Agent.dispatchMsg cfg)) :=
      Agent.foldl_memAdd_short_term cfg m.tool_calls (Agent.memAdd cfg mm m)
    rw [hshort, Agent.memAdd_short_term]
    have hs : (mm.short_term.add m).messages =
        lastN (mm.short_term.add m).capacity (mm.short_term.messages ++ [m]) := rfl
    rw [ShortTermMemory.addAll_messages (mm.short_term.add m)
      (mm.short_term.messages ++ [m]) hs (m.tool_calls.map (Agent.dispatchMsg cfg))]
    have hlen2 : (m.tool_calls.map (Agent.dispatchMsg cfg)).length ≤ mm.short_term.capacity := by
      rw [List.length_map]
      exact hlen
    exact lastN_suffix_of_le _ _ _ hlen2

/-- C2 counterexample: the claim as stated fails when the requests outnumber
the short-term capacity.  With capacity 1 and two unknown-tool requests,
after dispatch memory holds only the second tool message: no message tagged
with the first request's id remains. -/
theorem c2_counterexample :
    Agent.handle_tool_calls exCfg2 exMM2 exAsst2 =
      Except.ok (exMM2Out, Message.assistant "done" [] "t") ∧
    exAsst2.tool_calls.length = 2 ∧
    ¬ ∃ x ∈ exMM2Out.short_term.messages, x.tool_call_id = some "c1" := by
  refine ⟨rfl, rfl, by decide⟩

/-- C2 witness: the amended statement at a concrete single-request dispatch
within capacity. -/
theorem c2_witness :
    wAsst2.tool_calls ≠ [] ∧
    ∃ mmF,
      Agent.processCalls exCfg2 (Agent.memAdd exCfg2 wMM2 wAsst2) wAsst2.tool_calls =
        Except.ok mmF ∧
      Agent.handle_tool_calls exCfg2 wMM2 wAsst2 =
        (match Agent.call_model exCfg2 mmF.get_messages with
         | .ok m2 => Except.ok (mmF, m2)
         | .error e => Except.error e) ∧
      mmF.short_term.messages =
        lastN wMM2.short_term.capacity
          ((wMM2.short_term.messages ++ [wAsst2]) ++
            wAsst2.tool_calls.map (Agent.dispatchMsg exCfg2)) ∧
      (wAsst2.tool_calls.map (Agent.dispatchMsg exCfg2)).length = wAsst2.tool_calls.length ∧
      (∀ tc ∈ wAsst2.tool_calls,
        (Agent.dispatchMsg exCfg2 tc).role = Role.tool ∧
        (Agent.dispatchMsg exCfg2 tc).tool_call_id = some tc.id) ∧
      (wAsst2.tool_calls.length ≤ wMM2.short_term.capacity →
        (wAsst2.tool_calls.map (Agent.dispatchMsg exCfg2)) <:+ mmF.short_term.messages) :=
  ⟨by decide, c2_tool_dispatch_amended exCfg2 wMM2 wAsst2 (by decide) (by decide)⟩

/-- C1 (amended): for every user input, `Agent.run` returns a textual
response and propagates no exception, provided (a) the unguarded pre-`try`
region of `_call_model` — request serialization over the history and, with
caching enabled, the cache lookup (key generation and cached-response
parsing) — raises in no model invocation of the turn, and (b) every
tool-call request in the model's first response has a JSON-decodable
argument payload.  Under those provisos, provider failures inside the `try`,
tool lookup failures, tool-internal exceptions and durable-storage failures
are all folded into Messages.  (Both provisos are forced: without (b),
`json.loads` at agent.py:325 propagates; without (a), e.g. the `TypeError`
from `json.dumps` over SDK tool_calls objects in `_generate_cache_key`, or
the `AttributeError` from `to_dict` over a string-role rehydrated message,
propagates.) -/
theorem c1_run_no_raise_amended (cfg : AgentCfg) (mm : MemoryManager) (input_text : String)
    (hpre : ∀ msgs, ∃ r, cfg.pre msgs = Except.ok r)
    (hdec : ∀ response,
      Agent.call_model cfg
          (Agent.memAdd cfg mm (Message.user input_text [] cfg.now)).get_messages =
        Except.ok response →
      ∀ tc ∈ response.tool_calls, (cfg.decode tc.function.arguments).isSome) :
    ∃ out, Agent.run cfg mm input_text = Except.ok out := by
  set mm1 := Agent.memAdd cfg mm (Message.user input_text [] cfg.now) with hmm1
  obtain ⟨r1, hr1⟩ := Agent.call_model_ok_of_pre cfg mm1.get_messages hpre
  have hdec1 := hdec r1 hr1
  cases hie : r1.tool_calls.isEmpty with
  | true =>
    have h : Agent.run cfg mm input_text =
        Except.ok (Agent.memAdd cfg mm1 r1, r1.content) := by
      simp only [Agent.run]
      rw [← hmm1, hr1]
      show (match (if r1.tool_calls.isEmpty then Except.ok (mm1, r1)
                   else Agent.handle_tool_calls cfg mm1 r1) with
            | .ok (mm2, response2) =>
              Except.ok (Agent.memAdd cfg mm2 response2, response2.content)
            | .error e => Except.error e) = _
      rw [hie]
      rfl
    exact ⟨_, h⟩
  | false =>
    have heq := Agent.handle_tool_calls_eq cfg mm1 r1 hie hdec1
    set mmF := r1.tool_calls.foldl
      (fun acc tc => Agent.memAdd cfg acc (Agent.dispatchMsg cfg tc))
      (Agent.memAdd cfg mm1 r1) with hmmF
    obtain ⟨r2, hr2⟩ := Agent.call_model_ok_of_pre cfg mmF.get_messages hpre
    have hh : Agent.handle_tool_calls cfg mm1 r1 = Except.ok (mmF, r2) := by
      rw [heq, hr2]
    have h : Agent.run cfg mm input_text =
        Except.ok (Agent.memAdd cfg mmF r2, r2.content) := by
      simp only [Agent.run]
      rw [← hmm1, hr1]
      show (match (if r1.tool_calls.isEmpty then Except.ok (mm1, r1)
                   else Agent.handle_tool_calls cfg mm1 r1) with
            | .ok (mm2, response2) =>
              Except.ok (Agent.memAdd cfg mm2 response2, response2.content)
            | .error e => Except.error e) = _
      rw [hie]
      simp only [Bool.false_eq_true, if_false]
      rw [hh]
    exact ⟨_, h⟩

/-- C1 counterexample: the claim as stated fails when the backend requests a
tool call whose argument payload is not valid JSON: `json.loads` at the top
of the dispatch loop is unguarded and the exception escapes `Agent.run`. -/
theorem c1_counterexample :
    Agent.run exCfg1 exMM1 "hi" = Except.error ("JSONDecodeError: " ++ "oops") := rfl

/-- C1 witness: the amended statement on a concrete cache-disabled turn
whose backend answers with plain text. -/
theorem c1_witness : ∃ out, Agent.run wCfg1 wMM1 "hi" = Except.ok out :=
  c1_run_no_raise_amended wCfg1 wMM1 "hi" (fun _ => ⟨none, rfl⟩)
    (by
      intro response h
      have h2 := Except.ok.inj h
      subst h2
      decide)
